import Mathlib

/-!
Verification development for the torch-uncertainty classification routines
and evidential/Bayesian loss family.

Shallow embedding conventions:
* Tensors are modelled by the inductive `T` below, covering ranks 0 to 3 with
  rational entries.  PyTorch operations that can raise (reductions over a
  given `dim`, `einops.rearrange`, `max` over an empty dimension) return
  `Except String`; total operations are plain functions.
* Transcendental kernels (`exp`, `sigmoid`, `entr`, `log`, `digamma`,
  `lgamma`) are abstracted as function parameters of type `ℚ → ℚ`: every
  claim settled here is independent of their concrete values, so theorems
  quantify over them.
* External collaborators (mixing policies, external ensemble metrics,
  temperature scaling) are abstracted as opaque function parameters, per the
  interface contracts of the specification.
* Metric pools are modelled as lists of recorded `update` calls, newest
  first; the routines' step functions are state transformers over them.
-/

/-- A PyTorch tensor of rank 0, 1, 2 or 3 with rational entries.  Shape
information is carried by the nesting; rectangularity is assumed by the
operations (as for real tensors) and enforced through hypotheses in the
theorems that need it. -/
inductive T where
  | s (x : ℚ)
  | v (xs : List ℚ)
  | m (xss : List (List ℚ))
  | c (xsss : List (List (List ℚ)))
deriving DecidableEq

/-- Elementwise map over a tensor. -/
def tmap (f : ℚ → ℚ) : T → T
  | .s x => .s (f x)
  | .v xs => .v (xs.map f)
  | .m xss => .m (xss.map (fun r => r.map f))
  | .c x => .c (x.map (fun p => p.map (fun r => r.map f)))

/-- Elementwise negation, `-t`. -/
def negT : T → T := tmap (fun x => -x)

/-- Model of `squeeze(-1)`: drops the last dimension when its size is 1.
The size of the last dimension is read off the first row, as for a
rectangular, non-empty tensor. -/
def squeezeLast : T → T
  | .s x => .s x
  | .v xs => if xs.length = 1 then .s (xs.headD 0) else .v xs
  | .m xss => if (xss.headD []).length = 1 then .v (xss.map (fun r => r.headD 0)) else .m xss
  | .c x =>
      if ((x.headD []).headD []).length = 1 then
        .m (x.map (fun p => p.map (fun r => r.headD 0)))
      else .c x

/-- Maximum of a list, failing on the empty list as `torch.max` does when the
reduced dimension has size zero. -/
def listMax (xs : List ℚ) : Except String ℚ :=
  match xs with
  | [] => .error "RuntimeError: max(): Expected reduction dim to have non-zero size."
  | x :: rest => .ok (rest.foldl max x)

/-- Model of `t.max(dim=-1)[0]`: maximum over the last dimension. -/
def maxLast : T → Except String T
  | .s x => .ok (.s x)
  | .v xs => do pure (.s (← listMax xs))
  | .m xss => do pure (.v (← xss.mapM listMax))
  | .c x => do pure (.m (← x.mapM (fun p => p.mapM listMax)))

/-- Model of `t.sum(dim=-1)`: sum over the last dimension (total, the sum
over an empty dimension being zero as in PyTorch). -/
def sumLast : T → T
  | .s x => .s x
  | .v xs => .s xs.sum
  | .m xss => .v (xss.map (fun r => r.sum))
  | .c x => .m (x.map (fun p => p.map (fun r => r.sum)))

/-- Arithmetic mean of a list of rationals. -/
def listMean (xs : List ℚ) : ℚ := xs.sum / (xs.length : ℚ)

/-- Columnwise mean of a rectangular list of rows. -/
def matColMean (rows : List (List ℚ)) : List ℚ :=
  (List.range (rows.headD []).length).map
    (fun j => listMean (rows.map (fun r => r.getD j 0)))

/-- Entrywise mean across a list of matrices (mean over the outermost
dimension of a rank-3 tensor). -/
def cubeMean0 (x : List (List (List ℚ))) : List (List ℚ) :=
  (List.range (x.headD []).length).map (fun i =>
    (List.range ((x.headD []).headD []).length).map (fun j =>
      listMean (x.map (fun p => (p.getD i []).getD j 0))))

/-- Model of `t.mean(dim=d)`.  The dimension is normalised and validated as
in PyTorch: for a tensor of rank `r` the admissible range is
`[-max r 1, max r 1 - 1]`; outside it an IndexError is raised. -/
def meanDim : T → ℤ → Except String T
  | .s x, d =>
      if d < -1 ∨ 0 < d then .error "IndexError: Dimension out of range"
      else .ok (.s x)
  | .v xs, d =>
      if d < -1 ∨ 0 < d then .error "IndexError: Dimension out of range"
      else .ok (.s (listMean xs))
  | .m xss, d =>
      if d < -2 ∨ 1 < d then .error "IndexError: Dimension out of range"
      else
        let dn := if d < 0 then d + 2 else d
        if dn = 0 then .ok (.v (matColMean xss))
        else .ok (.v (xss.map listMean))
  | .c x, d =>
      if d < -3 ∨ 2 < d then .error "IndexError: Dimension out of range"
      else
        let dn := if d < 0 then d + 3 else d
        if dn = 0 then .ok (.m (cubeMean0 x))
        else if dn = 1 then .ok (.m (x.map matColMean))
        else .ok (.m (x.map (fun p => p.map listMean)))

/-- Softmax over one row, with the exponential abstracted as `pexp`. -/
def softmaxRow (pexp : ℚ → ℚ) (xs : List ℚ) : List ℚ :=
  let e := xs.map pexp
  let s := e.sum
  e.map (fun y => y / s)

/-- Model of `F.softmax(t, dim=-1)`: softmax over the last dimension. -/
def softmaxLast (pexp : ℚ → ℚ) : T → T
  | .s _ => .s 1
  | .v xs => .v (softmaxRow pexp xs)
  | .m xss => .m (xss.map (softmaxRow pexp))
  | .c x => .c (x.map (fun p => p.map (softmaxRow pexp)))

/-- Model of `t.transpose(0, 1)`: swaps the two outermost dimensions;
raises for tensors of rank below 2 as PyTorch does. -/
def lTranspose : List (List α) → List (List α)
  | [] => []
  | [r] => r.map (fun x => [x])
  | r :: q :: rest => List.zipWith List.cons r (lTranspose (q :: rest))

/-- Transpose of the two outermost dimensions of a tensor. -/
def transpose01 : T → Except String T
  | .s _ => .error "IndexError: Dimension out of range"
  | .v _ => .error "IndexError: Dimension out of range"
  | .m xss => .ok (.m (lTranspose xss))
  | .c x => .ok (.c (lTranspose x))

/-- Splits a list into `n` consecutive chunks of size `b` (the reshape
step of `einops.rearrange "(n b) c -> b n c"`, which groups the leading
axis with the estimator index varying slowest). -/
def listChunkN : ℕ → ℕ → List α → List (List α)
  | 0, _, _ => []
  | n + 1, b, xs => xs.take b :: listChunkN n b (xs.drop b)

/-- Model of `einops.rearrange(t, "(n b) c -> b n c", n)` on a stacked
matrix of shape `[n * b, c]`: reshape the leading axis into `(n, b)` — chunk
the rows into `n` consecutive groups of size `b` — then permute the first
two axes.  Fails when the leading axis is not divisible by `n`, as einops
does. -/
def ensembleRearrange (n : ℕ) (x : List (List ℚ)) : Except String (List (List (List ℚ))) :=
  if n = 0 ∨ x.length % n ≠ 0 then
    .error "einops.EinopsError: Shape mismatch, cannot divide axis of length by n"
  else
    .ok (lTranspose (listChunkN n (x.length / n) x))

/-! ## Loss family (torch_uncertainty/losses.py) -/

/-- Model of `KLDiv.forward`: sums `lvposterior - lprior` over the Bayesian
sub-modules of the model.  The argument is the list of
`(lvposterior, lprior)` pairs cached on those modules by the last forward
pass; the sum starts from `torch.zeros(1)`, hence it is `0` when no
Bayesian sub-module exists. -/
def KLDiv.forward (bayesianTerms : List (ℚ × ℚ)) : ℚ :=
  (bayesianTerms.map (fun p => p.1 - p.2)).sum

/-- Model of `ELBOLoss.forward`: starting from `torch.zeros(1)`, for each of
`num_samples` draws accumulate `criterion(model(inputs), targets)` and then
`kl_weight * kl_div()`, finally divide by `num_samples`.  A deterministic
model and criterion are pure functions, so each draw contributes the same
amount; `bayesianTerms` are the per-module KL contributions gathered by
`KLDiv`. -/
def ELBOLoss.forward {ι π τ : Type} (model : ι → π) (criterion : π → τ → ℚ)
    (kl_weight : ℚ) (bayesianTerms : List (ℚ × ℚ)) (num_samples : ℕ)
    (inputs : ι) (targets : τ) : ℚ :=
  ((List.range num_samples).foldl
      (fun agg _ =>
        agg + criterion (model inputs) targets + kl_weight * KLDiv.forward bayesianTerms)
      0)
    / (num_samples : ℚ)

/-- Result of a loss `forward` after the configured reduction: a scalar for
`"mean"`/`"sum"`, the elementwise tensor for `"none"`. -/
inductive LossOut where
  | scalar (x : ℚ)
  | tensor (rows : List (List ℚ))
deriving DecidableEq

/-- Sum of all entries of a matrix (`t.sum()`). -/
def matSum (rows : List (List ℚ)) : ℚ := (rows.map (fun r => r.sum)).sum

/-- Number of entries of a matrix (`t.numel()`). -/
def matNumel (rows : List (List ℚ)) : ℕ := (rows.map (fun r => r.length)).sum

/-- Mean of all entries of a matrix (`t.mean()`). -/
def matMean (rows : List (List ℚ)) : ℚ := matSum rows / (matNumel rows : ℚ)

/-- Model of `NIGLoss._nig_nll` at one entry, with `log` and `lgamma`
abstracted as `plog` and `plgamma` and the constant `torch.pi` as `piQ`:
`Gamma = 2 * beta * (1 + v)` and
`nll = 0.5 * log(pi / v) - alpha * log(Gamma)
     + (alpha + 0.5) * log(Gamma + v * (targets - gamma)^2)
     + lgamma(alpha) - lgamma(alpha + 0.5)`. -/
def nigNllElem (plog plgamma : ℚ → ℚ) (piQ : ℚ)
    (gamma v alpha beta targets : ℚ) : ℚ :=
  let Gamma := 2 * beta * (1 + v)
  (1 / 2) * plog (piQ / v) - alpha * plog Gamma
    + (alpha + 1 / 2) * plog (Gamma + v * (targets - gamma) ^ 2)
    + plgamma alpha - plgamma (alpha + 1 / 2)

/-- Elementwise `NIGLoss._nig_nll` over matrices of common shape. -/
def nigNll (plog plgamma : ℚ → ℚ) (piQ : ℚ)
    (gamma v alpha beta targets : List (List ℚ)) : List (List ℚ) :=
  List.zipWith
    (fun (gr : List ℚ × List ℚ) (rest : List ℚ × List ℚ × List ℚ) =>
      List.zipWith
        (fun (ga : ℚ × ℚ) (abt : ℚ × ℚ × ℚ) =>
          nigNllElem plog plgamma piQ ga.1 ga.2 abt.1 abt.2.1 abt.2.2)
        (List.zipWith Prod.mk gr.1 gr.2)
        (List.zipWith (fun a bt => (a, bt)) rest.1 (List.zipWith Prod.mk rest.2.1 rest.2.2)))
    (List.zipWith Prod.mk gamma v)
    (List.zipWith (fun a bt => (a, bt)) alpha (List.zipWith Prod.mk beta targets))

/-- Model of `NIGLoss._nig_reg`: the L1 norm of `targets - gamma` over the
feature dimension (`dim=1`, kept), broadcast against `2 * v + alpha`. -/
def nigReg (gamma v alpha targets : List (List ℚ)) : List (List ℚ) :=
  List.zipWith
    (fun (gt : List ℚ × List ℚ) (va : List ℚ × List ℚ) =>
      let nrm := (List.zipWith (fun t g => |t - g|) gt.2 gt.1).sum
      List.zipWith (fun vj aj => nrm * (2 * vj + aj)) va.1 va.2)
    (List.zipWith Prod.mk gamma targets)
    (List.zipWith Prod.mk v alpha)

/-- Model of `NIGLoss.forward`: `loss = nll + reg_weight * reg`, then the
configured reduction. -/
def NIGLoss.forward (plog plgamma : ℚ → ℚ) (piQ : ℚ) (reg_weight : ℚ)
    (reduction : String) (gamma v alpha beta targets : List (List ℚ)) : LossOut :=
  let loss_nll := nigNll plog plgamma piQ gamma v alpha beta targets
  let loss_reg := nigReg gamma v alpha targets
  let loss := List.zipWith (List.zipWith (fun a b => a + reg_weight * b)) loss_nll loss_reg
  if reduction = "mean" then .scalar (matMean loss)
  else if reduction = "sum" then .scalar (matSum loss)
  else .tensor loss

/-- Model of `DECLoss.__init__` validation: rejects a negative
`reg_weight`, a non-positive `annealing_step`, an invalid `reduction` and
an invalid `loss_type`. -/
def DECLoss.initValidate (annealing_step : Option ℤ) (reg_weight : Option ℚ)
    (loss_type : String) (reduction : String) : Except String Unit := do
  if h : reg_weight.isSome then
    if reg_weight.get h < 0 then
      throw "ValueError: The regularization weight should be non-negative"
  if h : annealing_step.isSome then
    if annealing_step.get h ≤ 0 then
      throw "ValueError: The annealing step should be positive"
  if reduction ≠ "none" ∧ reduction ≠ "mean" ∧ reduction ≠ "sum" then
    throw "ValueError: not a valid value for reduction"
  if loss_type ≠ "mse" ∧ loss_type ≠ "log" ∧ loss_type ≠ "digamma" then
    throw "ValueError: not a valid value for mse/log/digamma loss"
  pure ()

/-- Comparison `o > b` under Python semantics: comparing `None` with an
integer raises a TypeError. -/
def pyGTi (o : Option ℤ) (b : ℤ) : Except String Bool :=
  match o with
  | none => .error "TypeError: not supported between instances of NoneType and int"
  | some x => .ok (decide (b < x))

/-- Comparison `o > b` for an optional rational, with the same Python
`None` semantics. -/
def pyGTq (o : Option ℚ) (b : ℚ) : Except String Bool :=
  match o with
  | none => .error "TypeError: not supported between instances of NoneType and float"
  | some x => .ok (decide (b < x))

/-- Division `a / b` under Python semantics: `None` operands raise a
TypeError and a zero divisor raises a ZeroDivisionError. -/
def pyDiv (a : Option ℤ) (b : Option ℤ) : Except String ℚ :=
  match a, b with
  | some x, some y =>
      if y = 0 then .error "ZeroDivisionError: division by zero"
      else .ok ((x : ℚ) / (y : ℚ))
  | _, _ => .error "TypeError: unsupported operand type for NoneType"

/-- Model of the annealing-coefficient selection of `DECLoss.forward`
(the `if/elif/elif/else` chain after the fit term), with Python
short-circuit evaluation and `None` comparison/division errors:

* neither `reg_weight` nor `annealing_step` given: `0`;
* `reg_weight` absent, `annealing_step > 0` and `current_epoch > 0`:
  `min(1, current_epoch / annealing_step)`;
* `annealing_step` absent and `reg_weight > 0`: `reg_weight`;
* otherwise: `min(1, current_epoch / annealing_step)` — which raises a
  TypeError when `annealing_step` is `None` (the fall-through reached when
  `reg_weight = 0` was given alone). -/
def DECLoss.annealingCoef (reg_weight : Option ℚ) (annealing_step : Option ℤ)
    (current_epoch : Option ℤ) : Except String ℚ := do
  if reg_weight.isNone ∧ annealing_step.isNone then
    return 0
  let branch2 ←
    if reg_weight.isNone then do
      let g ← pyGTi annealing_step 0
      if g then pyGTi current_epoch 0 else pure false
    else pure false
  if branch2 then
    let q ← pyDiv current_epoch annealing_step
    return min 1 q
  let branch3 ←
    if annealing_step.isNone then pyGTq reg_weight 0 else pure false
  if branch3 then
    return reg_weight.getD 0
  let q ← pyDiv current_epoch annealing_step
  return min 1 q

/-- Model of `F.one_hot(targets, C)`: fails when a target is out of range. -/
def decOneHot (targets : List ℕ) (C : ℕ) : Except String (List (List ℚ)) :=
  if targets.all (fun t => t < C) then
    .ok (targets.map (fun t => (List.range C).map (fun j => if j = t then 1 else 0)))
  else .error "RuntimeError: Class values must be smaller than num_classes."

/-- Model of `DECLoss._mse_loss` on one row: with `alpha = relu(evidence)+1`
and `strength = sum(alpha)`, the squared error of `alpha / strength`
against the one-hot target plus the predictive variance. -/
def decMseRow (ev t : List ℚ) : ℚ :=
  let alpha := ev.map (fun x => max x 0 + 1)
  let strength := alpha.sum
  let err := (List.zipWith (fun tj aj => (tj - aj / strength) ^ 2) t alpha).sum
  let var := (alpha.map (fun aj =>
      aj * (strength - aj) / (strength * strength * (strength + 1)))).sum
  err + var

/-- Model of `DECLoss._log_loss` on one row, with `log` abstracted. -/
def decLogRow (plog : ℚ → ℚ) (ev t : List ℚ) : ℚ :=
  let alpha := ev.map (fun x => max x 0 + 1)
  let strength := alpha.sum
  (List.zipWith (fun tj aj => tj * (plog strength - plog aj)) t alpha).sum

/-- Model of `DECLoss._digamma_loss` on one row, with `digamma`
abstracted. -/
def decDigammaRow (pdig : ℚ → ℚ) (ev t : List ℚ) : ℚ :=
  let alpha := ev.map (fun x => max x 0 + 1)
  let strength := alpha.sum
  (List.zipWith (fun tj aj => tj * (pdig strength - pdig aj)) t alpha).sum

/-- Model of `DECLoss._kldiv_reg` on one row: KL of the non-target
concentration toward a flat Dirichlet, via abstracted `lgamma`/`digamma`. -/
def decKlRegRow (pdig plgam : ℚ → ℚ) (C : ℕ) (ev t : List ℚ) : ℚ :=
  let alpha := ev.map (fun x => max x 0 + 1)
  let kl_alpha := List.zipWith (fun aj tj => (aj - 1) * (1 - tj) + 1) alpha t
  let sum_kl := kl_alpha.sum
  let first := plgam sum_kl - (kl_alpha.map plgam).sum
      + (C : ℚ) * plgam 1 - plgam (C : ℚ)
  let second := (kl_alpha.map (fun kj => (kj - 1) * (pdig kj - pdig sum_kl))).sum
  first + second

/-- Model of `DECLoss.forward`: the missing-epoch guard, one-hot encoding,
the selected fit term, the annealing coefficient, the KL regulariser and
the reduction.  The elementwise loss has shape `[N, 1]` in the source
(`keepdim=True` columns); it is carried here as the list of its `N`
entries. -/
def DECLoss.forward (annealing_step : Option ℤ) (reg_weight : Option ℚ)
    (loss_type : String) (reduction : String) (plog pdig plgam : ℚ → ℚ)
    (evidence : List (List ℚ)) (targets : List ℕ)
    (current_epoch : Option ℤ) : Except String LossOut := do
  if annealing_step.isSome ∧ 0 < annealing_step.getD 0 ∧ current_epoch.isNone then
    throw "ValueError: The epoch num should be positive when annealing_step is settled"
  let C := (evidence.headD []).length
  let t ← decOneHot targets C
  let loss_dirichlet ←
    if loss_type = "mse" then pure (List.zipWith decMseRow evidence t)
    else if loss_type = "log" then pure (List.zipWith (decLogRow plog) evidence t)
    else if loss_type = "digamma" then pure (List.zipWith (decDigammaRow pdig) evidence t)
    else throw "UnboundLocalError: loss_dirichlet referenced before assignment"
  let annealing_coef ← DECLoss.annealingCoef reg_weight annealing_step current_epoch
  let loss_reg := List.zipWith (decKlRegRow pdig plgam C) evidence t
  let loss := List.zipWith (fun a b => a + annealing_coef * b) loss_dirichlet loss_reg
  if reduction = "mean" then return .scalar (listMean loss)
  else if reduction = "sum" then return .scalar loss.sum
  else return .tensor (loss.map (fun x => [x]))

/-! ## Classification routines (torch_uncertainty/routines/classification.py) -/

/-- A mixing policy as stored on the routine: either a plain
`(inputs, targets) -> (inputs, targets)` transformer or a kernel-warping
policy additionally taking similarity features. -/
inductive MixFn (ι τ : Type) where
  | plain (f : ι × τ → ι × τ)
  | warp (f : ι × τ → ι → ι × τ)

/-- State of a constructed `ClassificationSingle` routine: the
configuration fields read by the step functions, the model, the mixing
policy selected at construction (`none` when the `mixtype` chain assigned
nothing), and the calibration fields set by `on_test_start`. -/
structure SingleRoutine (ι τ : Type) where
  num_classes : ℕ
  ood_detection : Bool
  use_logits : Bool
  use_entropy : Bool
  calibration_set : Option Unit
  model : ι → List (List ℚ)
  feats_forward : ι → ι
  mixtype : String
  mixmode : String
  dist_sim : String
  mixup : Option (MixFn ι τ)
  is_elbo : Bool
  isBCE : Bool
  scaler : Option (List (List ℚ) → List (List ℚ)) := none
  cal_model : Option (ι → List (List ℚ)) := none

/-- Model of `ClassificationSingle.__init__`: the OOD-criterion exclusivity
check, the mixup/cutmix alpha check, and the `mixtype` dispatch — which has
no `else` branch, so an unrecognised name leaves the `mixup` attribute
unassigned (`none`) without raising.  The external mixing-policy
constructors are abstracted as the `timmF`/`mixupF`/`mixupIoF`/`regMixupF`/
`warpF` parameters; `isBCE` models `loss == nn.BCEWithLogitsLoss` and
`lossIsElboPartial` models `isinstance(loss, partial) and
loss.func == ELBOLoss`. -/
def ClassificationSingle.init {ι τ : Type} (num_classes : ℕ)
    (model : ι → List (List ℚ)) (feats_forward : ι → ι)
    (isBCE lossIsElboPartial : Bool)
    (mixtype mixmode dist_sim : String)
    (mixup_alpha cutmix_alpha : ℚ)
    (ood_detection use_entropy use_logits : Bool)
    (calibration_set : Option Unit)
    (timmF mixupF mixupIoF regMixupF : ι × τ → ι × τ)
    (warpF : ι × τ → ι → ι × τ) : Except String (SingleRoutine ι τ) := do
  if (cond use_logits 1 0 + cond use_entropy 1 0 : ℕ) > 1 then
    throw "ValueError: You cannot choose more than one OOD criterion."
  if mixup_alpha < 0 ∨ cutmix_alpha < 0 then
    throw "ValueError: Cutmix alpha and Mixup alpha must be positive."
  let mixup : Option (MixFn ι τ) :=
    if mixtype = "erm" then some (.plain (fun b => b))
    else if mixtype = "timm" then some (.plain timmF)
    else if mixtype = "mixup" then some (.plain mixupF)
    else if mixtype = "mixup_io" then some (.plain mixupIoF)
    else if mixtype = "regmixup" then some (.plain regMixupF)
    else if mixtype = "kernel_warping" then some (.warp warpF)
    else none
  pure
    { num_classes := num_classes
      ood_detection := ood_detection
      use_logits := use_logits
      use_entropy := use_entropy
      calibration_set := calibration_set
      model := model
      feats_forward := feats_forward
      mixtype := mixtype
      mixmode := mixmode
      dist_sim := dist_sim
      mixup := mixup
      is_elbo := lossIsElboPartial
      isBCE := isBCE }

/-- Metric pools of the single routine, each recorded as the list of its
`update` calls, newest first.  `val_cls` is the validation pool, `ts_cls`
the calibrated test pool, `test_cls` the in-distribution test pool,
`test_ood` the OOD pool (scores and binary labels), and the two entropy
fields the running entropy metrics. -/
structure SinglePools where
  val_cls : List (T × List ℤ) := []
  ts_cls : List (T × List ℤ) := []
  test_cls : List (T × List ℤ) := []
  entropy_id : List T := []
  test_ood : List (T × List ℤ) := []
  entropy_ood : List T := []
deriving DecidableEq

/-- Probability computation shared by the single routine's validation and
test steps: sigmoid then `squeeze(-1)` in binary mode, softmax over the
class dimension otherwise. -/
def singleProbs {ι τ : Type} (r : SingleRoutine ι τ) (pexp psig : ℚ → ℚ)
    (logits : T) : T :=
  if r.num_classes = 1 then squeezeLast (tmap psig logits)
  else softmaxLast pexp logits

/-- OOD-score selection of `ClassificationSingle.test_step`: negative max
logit under `use_logits`, summed per-class entropy under `use_entropy`,
negative confidence otherwise. -/
def singleOodValues {ι τ : Type} (r : SingleRoutine ι τ) (pentr : ℚ → ℚ)
    (logits probs confs : T) : Except String T :=
  if r.use_logits then do
    let lm ← maxLast logits
    pure (negT lm)
  else if r.use_entropy then
    pure (sumLast (tmap pentr probs))
  else
    pure (negT confs)

/-- The calibrated-pool update of `ClassificationSingle.test_step`,
performed before the dataloader-index dispatch whenever `calibration_set`,
`scaler` and `cal_model` are all set: forward the batch through the
calibrated model, softmax, and update the calibrated metric pool. -/
def applyCalibration {ι τ : Type} (r : SingleRoutine ι τ) (pexp : ℚ → ℚ)
    (inputs : ι) (targets : List ℤ) (st : SinglePools) : SinglePools :=
  match r.calibration_set, r.scaler, r.cal_model with
  | some _, some _, some cm =>
      { st with ts_cls := (softmaxLast pexp (T.m (cm inputs)), targets) :: st.ts_cls }
  | _, _, _ => st

/-- Model of `ClassificationSingle.validation_step`. -/
def ClassificationSingle.validation_step {ι τ : Type} (r : SingleRoutine ι τ)
    (pexp psig : ℚ → ℚ) (inputs : ι) (targets : List ℤ)
    (st : SinglePools) : SinglePools :=
  let logits := T.m (r.model inputs)
  let probs := singleProbs r pexp psig logits
  { st with val_cls := (probs, targets) :: st.val_cls }

/-- Model of `ClassificationSingle.test_step`: forward pass, probabilities,
confidence, OOD score, the unconditional calibrated-pool update, then the
dataloader-index dispatch — index 0 updates the in-distribution pools (and
seeds the OOD pool with negative labels when OOD detection is on), index 1
with OOD detection updates the OOD pool with positive labels, and any other
index falls through without touching the dispatched pools. -/
def ClassificationSingle.test_step {ι τ : Type} (r : SingleRoutine ι τ)
    (pexp psig pentr : ℚ → ℚ) (inputs : ι) (targets : List ℤ)
    (dataloader_idx : ℕ) (st : SinglePools) : Except String SinglePools := do
  let logits := T.m (r.model inputs)
  let probs := singleProbs r pexp psig logits
  let confs ← maxLast probs
  let ood_values ← singleOodValues r pentr logits probs confs
  let st := applyCalibration r pexp inputs targets st
  if dataloader_idx = 0 then
    let st := { st with
      test_cls := (probs, targets) :: st.test_cls
      entropy_id := probs :: st.entropy_id }
    if r.ood_detection then
      pure { st with test_ood := (ood_values, targets.map (fun _ => 0)) :: st.test_ood }
    else
      pure st
  else if r.ood_detection ∧ dataloader_idx = 1 then
    pure { st with
      test_ood := (ood_values, targets.map (fun _ => 1)) :: st.test_ood
      entropy_ood := probs :: st.entropy_ood }
  else
    pure st

/-- Model of `ClassificationSingle.on_test_start`: when a calibration set
is configured, fit a temperature scaler (abstracted as the already-fitted
`fittedTS`) and cache both it and the calibrated model
`Sequential(model, scaler)`; otherwise leave both unset. -/
def ClassificationSingle.on_test_start {ι τ : Type} (r : SingleRoutine ι τ)
    (fittedTS : List (List ℚ) → List (List ℚ)) : SingleRoutine ι τ :=
  if r.calibration_set.isSome then
    { r with scaler := some fittedTS, cal_model := some (fun x => fittedTS (r.model x)) }
  else
    { r with scaler := none, cal_model := none }

/-- Model of `ClassificationSingle.training_step`: kernel-warping policies
receive similarity features (frozen embeddings or the raw inputs), other
policies are applied directly; accessing a never-assigned `mixup`
attribute raises, as does calling a policy with the wrong arity.  After
batch formatting, the ELBO criterion is called on raw inputs, otherwise on
logits (squeezed and with float targets in the binary BCE case). -/
def ClassificationSingle.training_step {ι τ : Type} (r : SingleRoutine ι τ)
    (elboCriterion : ι → τ → ℚ) (criterion : T → τ → ℚ) (floatCast : τ → τ)
    (format_batch_fn : ι × τ → ι × τ) (batch : ι × τ) : Except String ℚ := do
  let batch ←
    if r.mixtype = "kernel_warping" then
      match r.mixup with
      | none => throw "AttributeError: object has no attribute mixup"
      | some (.plain _) => throw "TypeError: takes 2 positional arguments but 3 were given"
      | some (.warp w) =>
          if r.dist_sim = "emb" then pure (w batch (r.feats_forward batch.1))
          else if r.dist_sim = "inp" then pure (w batch batch.1)
          else pure batch
    else
      match r.mixup with
      | none => throw "AttributeError: object has no attribute mixup"
      | some (.plain f) => pure (f batch)
      | some (.warp _) => throw "TypeError: missing 1 required positional argument"
  let (inputs, targets) := format_batch_fn batch
  if r.is_elbo then
    pure (elboCriterion inputs targets)
  else
    let logits := T.m (r.model inputs)
    let (logits, targets) :=
      if r.num_classes = 1 ∧ r.isBCE then (squeezeLast logits, floatCast targets)
      else (logits, targets)
    pure (criterion logits targets)

/-- State of a constructed `ClassificationEnsemble` routine. -/
structure EnsRoutine (ι τ : Type) extends SingleRoutine ι τ where
  num_estimators : ℕ
  use_mi : Bool
  use_variation_ratio : Bool

/-- Model of `ClassificationEnsemble.__init__`: the base constructor is run
first (with its defaults for the parameters the ensemble constructor does
not forward, in particular `mixtype="erm"` and no calibration set), then
the four-way OOD-criterion exclusivity check. -/
def ClassificationEnsemble.init {ι τ : Type} (num_classes : ℕ)
    (model : ι → List (List ℚ)) (feats_forward : ι → ι)
    (isBCE lossIsElboPartial : Bool) (num_estimators : ℕ)
    (mixup_alpha cutmix_alpha : ℚ)
    (ood_detection use_entropy use_logits use_mi use_variation_ratio : Bool) :
    Except String (EnsRoutine ι τ) := do
  let base ← ClassificationSingle.init num_classes model feats_forward
    isBCE lossIsElboPartial "erm" "elem" "emb" mixup_alpha cutmix_alpha
    ood_detection use_entropy use_logits none
    (fun b => b) (fun b => b) (fun b => b) (fun b => b) (fun b _ => b)
  if (cond use_logits 1 0 + cond use_entropy 1 0
      + cond use_mi 1 0 + cond use_variation_ratio 1 0 : ℕ) > 1 then
    throw "ValueError: You cannot choose more than one OOD criterion."
  pure { base with
    num_estimators := num_estimators
    use_mi := use_mi
    use_variation_ratio := use_variation_ratio }

/-- Metric pools of the ensemble routine: the single-routine pools plus the
ensemble-agreement pools fed with the full per-estimator tensor. -/
structure EnsPools extends SinglePools where
  id_ens : List T := []
  ood_ens : List T := []
deriving DecidableEq

/-- Model of `ClassificationEnsemble.validation_step`: rearrange the
stacked logits to `(batch, estimator, class)`, per-estimator probabilities
(with `squeeze(-1)` in binary mode), mean over the estimator axis, update
the validation pool with the aggregate. -/
def ClassificationEnsemble.validation_step {ι τ : Type} (r : EnsRoutine ι τ)
    (pexp psig : ℚ → ℚ) (inputs : ι) (targets : List ℤ)
    (st : EnsPools) : Except String EnsPools := do
  let logits ← ensembleRearrange r.num_estimators (r.model inputs)
  let probs_per_est :=
    if r.num_classes = 1 then squeezeLast (tmap psig (T.c logits))
    else softmaxLast pexp (T.c logits)
  let probs ← meanDim probs_per_est 1
  pure { st with val_cls := (probs, targets) :: st.val_cls }

/-- Model of `ClassificationEnsemble.test_step`: rearrange the stacked
logits, per-estimator probabilities (no squeeze here), estimator-mean
aggregate, confidences, then the OOD-score selection — including the
`use_entropy` branch `entr(probs).sum(dim=-1).mean(dim=1)` applied to the
already-aggregated probabilities — and the dataloader-index dispatch with
the additional ensemble-agreement pools.  The external mutual-information
and variation-ratio metrics are abstracted as `miF` and `vrF`. -/
def ClassificationEnsemble.test_step {ι τ : Type} (r : EnsRoutine ι τ)
    (pexp psig pentr : ℚ → ℚ) (miF vrF : T → T) (inputs : ι)
    (targets : List ℤ) (dataloader_idx : ℕ) (st : EnsPools) :
    Except String EnsPools := do
  let logits ← ensembleRearrange r.num_estimators (r.model inputs)
  let probs_per_est :=
    if r.num_classes = 1 then tmap psig (T.c logits)
    else softmaxLast pexp (T.c logits)
  let probs ← meanDim probs_per_est 1
  let confs ← maxLast probs
  let ood_values ←
    if r.use_logits then do
      let lm ← meanDim (T.c logits) 1
      let mx ← maxLast lm
      pure (negT mx)
    else if r.use_entropy then
      meanDim (sumLast (tmap pentr probs)) 1
    else if r.use_mi then
      pure (miF probs_per_est)
    else if r.use_variation_ratio then do
      let tp ← transpose01 probs_per_est
      pure (vrF tp)
    else
      pure (negT confs)
  if dataloader_idx = 0 then
    let st := { st with
      test_cls := ((if r.num_classes = 1 then squeezeLast probs else probs), targets)
          :: st.test_cls
      entropy_id := probs :: st.entropy_id
      id_ens := probs_per_est :: st.id_ens }
    if r.ood_detection then
      pure { st with test_ood := (ood_values, targets.map (fun _ => 0)) :: st.test_ood }
    else
      pure st
  else if r.ood_detection ∧ dataloader_idx = 1 then
    pure { st with
      test_ood := (ood_values, targets.map (fun _ => 1)) :: st.test_ood
      entropy_ood := probs :: st.entropy_ood
      ood_ens := probs_per_est :: st.ood_ens }
  else
    pure st

/-! ## Concrete instances used by witnesses and counterexamples -/

/-- A small single routine: two classes, OOD detection on, default
(confidence) OOD criterion, no calibration. -/
def rDemo : SingleRoutine Unit Unit :=
  { num_classes := 2
    ood_detection := true
    use_logits := false
    use_entropy := false
    calibration_set := none
    model := fun _ => [[1, 0]]
    feats_forward := fun x => x
    mixtype := "erm"
    mixmode := "elem"
    dist_sim := "emb"
    mixup := some (.plain (fun b => b))
    is_elbo := false
    isBCE := false }

/-- A single routine configured with a calibration set (before
`on_test_start`). -/
def rCal0 : SingleRoutine Unit Unit :=
  { rDemo with ood_detection := false, calibration_set := some () }

/-- An ensemble routine with the entropy OOD criterion selected, one
estimator and two classes. -/
def rEnsEntropy : EnsRoutine Unit Unit :=
  { rDemo with
    ood_detection := false
    use_entropy := true
    model := fun _ => [[1, 0], [0, 1]]
    num_estimators := 1
    use_mi := false
    use_variation_ratio := false }

/-- A binary (one-class) single routine with OOD detection on and the
default confidence criterion; its probability path avoids softmax, so all
tensor values stay in closed form. -/
def rBin : SingleRoutine Unit Unit :=
  { rDemo with num_classes := 1, model := fun _ => [[5]] }

/-- A stacked 12 x 5 logits matrix (3 estimators, batch 4, 5 classes);
row `r` is `[10 r, 10 r + 1, 10 r + 2, 10 r + 3, 10 r + 4]`. -/
def stacked12x5 : List (List ℚ) :=
  (List.range 12).map (fun r => (List.range 5).map (fun j => (10 * r + j : ℚ)))

/-! ## Helper lemmas -/

@[simp] theorem except_bind_ok {ε α β : Type} (a : α) (k : α → Except ε β) :
    (Except.ok a : Except ε α) >>= k = k a := rfl

@[simp] theorem except_bind_error {ε α β : Type} (e : ε) (k : α → Except ε β) :
    (Except.error e : Except ε α) >>= k = .error e := rfl

@[simp] theorem except_pure_eq_ok {ε α : Type} (a : α) :
    (pure a : Except ε α) = .ok a := rfl

@[simp] theorem except_throw_eq_error {ε α : Type} (e : ε) :
    (throw e : Except ε α) = .error e := rfl

@[simp] theorem except_map_ok {ε α β : Type} (f : α → β) (a : α) :
    f <$> (Except.ok a : Except ε α) = .ok (f a) := rfl

@[simp] theorem except_map_error {ε α β : Type} (f : α → β) (e : ε) :
    f <$> (Except.error e : Except ε α) = .error e := rfl

theorem except_exists_ok {ε α : Type} (x : Except ε α) (h : ∀ e, x ≠ .error e) :
    ∃ a, x = .ok a := by
  cases x with
  | error e => exact absurd rfl (h e)
  | ok a => exact ⟨a, rfl⟩

theorem foldl_add_const (c₁ c₂ : ℚ) : ∀ (k : ℕ) (x : ℚ),
    (List.range k).foldl (fun a _ => a + c₁ + c₂) x = x + k * (c₁ + c₂) := by
  intro k
  induction k with
  | zero => intro x; simp
  | succ k ih =>
      intro x
      rw [List.range_succ, List.foldl_append, ih]
      simp only [List.foldl_cons, List.foldl_nil]
      push_cast
      ring

/-! ## Claim theorems -/

/-- C6: `ELBOLoss.forward` returns the mean over `num_samples` draws of
`criterion(model(inputs), targets) + kl_weight * kl_divergence()`; for a
deterministic model and criterion the result is independent of the number
of draws `k ≥ 1` and equals the single-sample loss. -/
theorem elbo_sample_mean_invariance {ι π τ : Type} (model : ι → π)
    (criterion : π → τ → ℚ) (kl_weight : ℚ) (bayesianTerms : List (ℚ × ℚ))
    (k : ℕ) (inputs : ι) (targets : τ) (hk : 1 ≤ k) :
    ELBOLoss.forward model criterion kl_weight bayesianTerms k inputs targets
      = criterion (model inputs) targets + kl_weight * KLDiv.forward bayesianTerms ∧
    ELBOLoss.forward model criterion kl_weight bayesianTerms k inputs targets
      = ELBOLoss.forward model criterion kl_weight bayesianTerms 1 inputs targets := by
  have hk0 : ((k : ℚ)) ≠ 0 := by
    exact_mod_cast Nat.pos_iff_ne_zero.mp (by omega)
  have h1 : ELBOLoss.forward model criterion kl_weight bayesianTerms k inputs targets
      = criterion (model inputs) targets + kl_weight * KLDiv.forward bayesianTerms := by
    unfold ELBOLoss.forward
    rw [foldl_add_const]
    rw [zero_add, mul_comm, mul_div_assoc, div_self hk0, mul_one]
  refine ⟨h1, ?_⟩
  rw [h1]
  unfold ELBOLoss.forward
  rw [foldl_add_const]
  norm_num

/-- C6 witness: with a constant criterion returning 5, KL weight 2 and a
single Bayesian term contributing 2, three draws give `5 + 2 * 2 = 9`,
the single-sample loss. -/
theorem elbo_sample_mean_invariance_witness :
    ELBOLoss.forward (fun _ : Unit => ()) (fun _ _ => (5 : ℚ)) 2 [(3, 1)] 3 () ()
      = (fun _ _ => (5 : ℚ)) () () + 2 * KLDiv.forward [(3, 1)] ∧
    ELBOLoss.forward (fun _ : Unit => ()) (fun _ _ => (5 : ℚ)) 2 [(3, 1)] 3 () ()
      = ELBOLoss.forward (fun _ : Unit => ()) (fun _ _ => (5 : ℚ)) 2 [(3, 1)] 1 () () :=
  elbo_sample_mean_invariance (fun _ : Unit => ()) (fun _ _ => (5 : ℚ)) 2 [(3, 1)] 3 () ()
    (by decide)

/-- C7: `NIGLoss.forward` computes one elementwise loss tensor; the
`"sum"` reduction equals the sum of the `"none"` tensor and the `"mean"`
reduction equals its mean. -/
theorem nig_reduction_consistency (plog plgamma : ℚ → ℚ) (piQ reg_weight : ℚ)
    (gamma v alpha beta targets : List (List ℚ)) :
    ∃ L, NIGLoss.forward plog plgamma piQ reg_weight "none" gamma v alpha beta targets
        = .tensor L ∧
      NIGLoss.forward plog plgamma piQ reg_weight "sum" gamma v alpha beta targets
        = .scalar (matSum L) ∧
      NIGLoss.forward plog plgamma piQ reg_weight "mean" gamma v alpha beta targets
        = .scalar (matMean L) := by
  exact ⟨_, rfl, rfl, rfl⟩

/-- C3: the effective annealing coefficient of `DECLoss.forward` is 0 when
neither `reg_weight` nor `annealing_step` was given; `min(1,
current_epoch / annealing_step)` when only `annealing_step` was given and
`current_epoch > 0`; the constant `reg_weight` when only a positive
`reg_weight` was given; and `min(1, current_epoch / annealing_step)` —
with `reg_weight` ignored — when both were given. -/
theorem dec_annealing_coef_cases (S e : ℤ) (w : ℚ) (ce : Option ℤ)
    (hS : 0 < S) (he : 0 < e) (hw : 0 < w) :
    (DECLoss.annealingCoef none none ce = .ok 0) ∧
    (DECLoss.annealingCoef none (some S) (some e)
      = .ok (min 1 ((e : ℚ) / (S : ℚ)))) ∧
    (DECLoss.annealingCoef (some w) none ce = .ok w) ∧
    (DECLoss.annealingCoef (some w) (some S) (some e)
      = .ok (min 1 ((e : ℚ) / (S : ℚ)))) := by
  refine ⟨?_, ?_, ?_, ?_⟩
  · simp [DECLoss.annealingCoef]
  · simp [DECLoss.annealingCoef, pyGTi, pyDiv, hS, he, hS.ne']
  · simp [DECLoss.annealingCoef, pyGTq, hw]
  · simp [DECLoss.annealingCoef, pyGTi, pyDiv, hS.ne']

/-- C3 witness: at `annealing_step = 2`, `current_epoch = 1`,
`reg_weight = 1`, the four branch equations hold concretely. -/
theorem dec_annealing_coef_cases_witness :
    (DECLoss.annealingCoef none none none = .ok 0) ∧
    (DECLoss.annealingCoef none (some 2) (some 1)
      = .ok (min 1 ((1 : ℚ) / (2 : ℚ)))) ∧
    (DECLoss.annealingCoef (some 1) none none = .ok 1) ∧
    (DECLoss.annealingCoef (some 1) (some 2) (some 1)
      = .ok (min 1 ((1 : ℚ) / (2 : ℚ)))) := by
  have h := dec_annealing_coef_cases 2 1 1 none (by decide) (by decide) one_pos
  simpa using h

/-- C10: a `DECLoss` constructed with `reg_weight = 0` and no
`annealing_step` passes construction validation, yet every `forward` call
on well-formed evidence and targets raises — the coefficient selection
falls through to the branch dividing by the absent annealing step — for
any choice of `current_epoch`. -/
theorem dec_regweight_zero_without_annealing_raises (plog pdig plgam : ℚ → ℚ)
    (evidence : List (List ℚ)) (targets : List ℕ) (ce : Option ℤ)
    (hwf : targets.all (fun t => t < (evidence.headD []).length) = true) :
    DECLoss.initValidate none (some 0) "log" "mean" = .ok () ∧
    ∃ msg, DECLoss.forward none (some 0) "log" "mean" plog pdig plgam
        evidence targets ce = .error msg := by
  constructor
  · simp [DECLoss.initValidate]
  · refine ⟨"TypeError: unsupported operand type for NoneType", ?_⟩
    have hwf' : ∀ x ∈ targets, x < (evidence.head?.getD []).length := by
      simpa [List.headD_eq_head?_getD] using hwf
    simp [DECLoss.forward, decOneHot, hwf', DECLoss.annealingCoef, pyGTq, pyDiv]
    rw [if_pos hwf']
    rfl

/-- C10 witness: evidence `[[1, 0]]` with target `[0]` and no epoch
supplied is well-formed, construction succeeds, and `forward` raises. -/
theorem dec_regweight_zero_without_annealing_raises_witness :
    DECLoss.initValidate none (some 0) "log" "mean" = .ok () ∧
    ∃ msg, DECLoss.forward none (some 0) "log" "mean"
        (fun x => x) (fun x => x) (fun x => x) [[1, 0]] [0] none = .error msg :=
  dec_regweight_zero_without_annealing_raises (fun x => x) (fun x => x) (fun x => x)
    [[1, 0]] [0] none (by decide)

/-- C2: the single routine rejects `use_logits` and `use_entropy` both set;
the ensemble routine rejects two or more of `use_logits`, `use_entropy`,
`use_mi`, `use_variation_ratio` set; with at most one such flag set (and
otherwise admissible arguments) construction does not raise on this
account. -/
theorem ood_criterion_exclusivity {ι τ : Type} (num_classes : ℕ)
    (model : ι → List (List ℚ)) (ff : ι → ι) (isBCE elbo : Bool)
    (mixtype mixmode dist_sim : String) (ma ca : ℚ)
    (ood uL uE uM uV : Bool) (num_estimators : ℕ)
    (calibration_set : Option Unit)
    (timmF mixupF mixupIoF regMixupF : ι × τ → ι × τ) (warpF : ι × τ → ι → ι × τ)
    (hma : 0 ≤ ma) (hca : 0 ≤ ca) :
    (uL = true → uE = true →
      ∃ msg, ClassificationSingle.init num_classes model ff isBCE elbo
        mixtype mixmode dist_sim ma ca ood uE uL calibration_set
        timmF mixupF mixupIoF regMixupF warpF = .error msg) ∧
    (¬(uL = true ∧ uE = true) →
      ∃ r, ClassificationSingle.init num_classes model ff isBCE elbo
        mixtype mixmode dist_sim ma ca ood uE uL calibration_set
        timmF mixupF mixupIoF regMixupF warpF = .ok r) ∧
    ((cond uL 1 0 + cond uE 1 0 + cond uM 1 0 + cond uV 1 0 : ℕ) > 1 →
      ∃ msg, ClassificationEnsemble.init (ι := ι) (τ := τ) num_classes model ff
        isBCE elbo num_estimators ma ca ood uE uL uM uV = .error msg) ∧
    ((cond uL 1 0 + cond uE 1 0 + cond uM 1 0 + cond uV 1 0 : ℕ) ≤ 1 →
      ∃ rE, ClassificationEnsemble.init (ι := ι) (τ := τ) num_classes model ff
        isBCE elbo num_estimators ma ca ood uE uL uM uV = .ok rE) := by
  refine ⟨?_, ?_, ?_, ?_⟩
  · intro h1 h2
    subst h1; subst h2
    refine ⟨"ValueError: You cannot choose more than one OOD criterion.", ?_⟩
    simp [ClassificationSingle.init]
  · intro hne
    have hle : (cond uL 1 0 + cond uE 1 0 : ℕ) ≤ 1 := by
      cases uL <;> cases uE <;> simp_all
    refine except_exists_ok _ ?_
    intro e
    simp [ClassificationSingle.init, Nat.not_lt.mpr hle, hma.not_lt, hca.not_lt]
  · intro h
    refine ⟨"ValueError: You cannot choose more than one OOD criterion.", ?_⟩
    by_cases huLE : (cond uL 1 0 + cond uE 1 0 : ℕ) > 1
    · simp [ClassificationEnsemble.init, ClassificationSingle.init, huLE]
    · simp [ClassificationEnsemble.init, ClassificationSingle.init, huLE,
        hma.not_lt, hca.not_lt, h]
  · intro h
    have hle : (cond uL 1 0 + cond uE 1 0 : ℕ) ≤ 1 := by omega
    refine except_exists_ok _ ?_
    intro e
    simp [ClassificationEnsemble.init, ClassificationSingle.init,
      Nat.not_lt.mpr hle, Nat.not_lt.mpr h, hma.not_lt, hca.not_lt]

/-- C2 witness: with both base flags set the single and ensemble
constructors fail, and with only `use_entropy` set both succeed. -/
theorem ood_criterion_exclusivity_witness :
    ((true : Bool) = true → (true : Bool) = true →
      ∃ msg, ClassificationSingle.init (ι := Unit) (τ := Unit) 2 (fun _ => [[1, 0]])
        (fun x => x) false false "erm" "elem" "emb" 0 0 false true true none
        (fun b => b) (fun b => b) (fun b => b) (fun b => b) (fun b _ => b)
        = .error msg) ∧
    (¬((true : Bool) = true ∧ (true : Bool) = true) →
      ∃ r, ClassificationSingle.init (ι := Unit) (τ := Unit) 2 (fun _ => [[1, 0]])
        (fun x => x) false false "erm" "elem" "emb" 0 0 false true true none
        (fun b => b) (fun b => b) (fun b => b) (fun b => b) (fun b _ => b)
        = .ok r) ∧
    ((cond true 1 0 + cond true 1 0 + cond false 1 0 + cond false 1 0 : ℕ) > 1 →
      ∃ msg, ClassificationEnsemble.init (ι := Unit) (τ := Unit) 2 (fun _ => [[1, 0]])
        (fun x => x) false false 3 0 0 false true true false false = .error msg) ∧
    ((cond true 1 0 + cond true 1 0 + cond false 1 0 + cond false 1 0 : ℕ) ≤ 1 →
      ∃ rE, ClassificationEnsemble.init (ι := Unit) (τ := Unit) 2 (fun _ => [[1, 0]])
        (fun x => x) false false 3 0 0 false true true false false = .ok rE) :=
  ood_criterion_exclusivity 2 (fun _ => [[1, 0]]) (fun x => x) false false
    "erm" "elem" "emb" 0 0 false true true false false 3 none
    (fun b => b) (fun b => b) (fun b => b) (fun b => b) (fun b _ => b)
    (le_refl 0) (le_refl 0)

/-- C8 counterexample: constructing the single routine with the
mixing-policy name "cutmix" — outside the six supported kinds — does NOT
fail: construction succeeds and no mixing policy is assigned. -/
theorem unknown_mixtype_construction_succeeds :
    (ClassificationSingle.init (ι := Unit) (τ := Unit) 2 (fun _ => [[1, 0]])
      (fun x => x) false false "cutmix" "elem" "emb" 0 0 false false false none
      (fun b => b) (fun b => b) (fun b => b) (fun b => b) (fun b _ => b)).map
      (fun r => r.mixup.isSome) = .ok false := rfl

/-- C8 (amended): the configuration checks the single routine performs
(OOD-criterion exclusivity, negative mixup/cutmix alpha) are raised at
construction, but a mixing-policy name outside the six supported kinds is
not validated there: construction succeeds with no mixing policy assigned,
and every subsequent training step fails when the missing policy is
accessed. -/
theorem mixtype_validation_deferred_to_training {ι τ : Type} (num_classes : ℕ)
    (model : ι → List (List ℚ)) (ff : ι → ι) (isBCE elbo : Bool)
    (mixtype mixmode dist_sim : String) (ma ca : ℚ)
    (ood uL uE : Bool) (calibration_set : Option Unit)
    (timmF mixupF mixupIoF regMixupF : ι × τ → ι × τ) (warpF : ι × τ → ι → ι × τ)
    (hmix : mixtype ∉
      (["erm", "timm", "mixup", "mixup_io", "regmixup", "kernel_warping"] : List String))
    (hflag : ¬(uL = true ∧ uE = true)) (hma : 0 ≤ ma) (hca : 0 ≤ ca) :
    (∀ ma' ca' : ℚ, ma' < 0 ∨ ca' < 0 →
      ∃ msg, ClassificationSingle.init num_classes model ff isBCE elbo
        mixtype mixmode dist_sim ma' ca' ood uE uL calibration_set
        timmF mixupF mixupIoF regMixupF warpF = .error msg) ∧
    ∃ r, ClassificationSingle.init num_classes model ff isBCE elbo
        mixtype mixmode dist_sim ma ca ood uE uL calibration_set
        timmF mixupF mixupIoF regMixupF warpF = .ok r ∧
      r.mixup = none ∧
      ∀ (elboC : ι → τ → ℚ) (crit : T → τ → ℚ) (fc : τ → τ)
        (fmt : ι × τ → ι × τ) (batch : ι × τ),
        ClassificationSingle.training_step r elboC crit fc fmt batch
          = .error "AttributeError: object has no attribute mixup" := by
  have hle : (cond uL 1 0 + cond uE 1 0 : ℕ) ≤ 1 := by
    cases uL <;> cases uE <;> simp_all
  simp only [List.mem_cons, List.not_mem_nil, or_false, not_or] at hmix
  obtain ⟨h1, h2, h3, h4, h5, h6⟩ := hmix
  constructor
  · intro ma' ca' h
    refine ⟨"ValueError: Cutmix alpha and Mixup alpha must be positive.", ?_⟩
    simp [ClassificationSingle.init, Nat.not_lt.mpr hle, h]
  · refine ⟨{ num_classes := num_classes
              ood_detection := ood
              use_logits := uL
              use_entropy := uE
              calibration_set := calibration_set
              model := model
              feats_forward := ff
              mixtype := mixtype
              mixmode := mixmode
              dist_sim := dist_sim
              mixup := none
              is_elbo := elbo
              isBCE := isBCE }, ?_, rfl, ?_⟩
    · simp [ClassificationSingle.init, Nat.not_lt.mpr hle, hma.not_lt, hca.not_lt,
        h1, h2, h3, h4, h5, h6]
    · intro elboC crit fc fmt batch
      simp [ClassificationSingle.training_step, h6]

/-- C8 witness: with the unsupported name "cutmix" and otherwise valid
arguments, negative alphas fail at construction while the unknown mixtype
is accepted with no policy assigned, and the training step then raises. -/
theorem mixtype_validation_deferred_to_training_witness :
    (∀ ma' ca' : ℚ, ma' < 0 ∨ ca' < 0 →
      ∃ msg, ClassificationSingle.init (ι := Unit) (τ := Unit) 2 (fun _ => [[1, 0]])
        (fun x => x) false false "cutmix" "elem" "emb" ma' ca' false false false none
        (fun b => b) (fun b => b) (fun b => b) (fun b => b) (fun b _ => b)
        = .error msg) ∧
    ∃ r, ClassificationSingle.init (ι := Unit) (τ := Unit) 2 (fun _ => [[1, 0]])
        (fun x => x) false false "cutmix" "elem" "emb" 0 0 false false false none
        (fun b => b) (fun b => b) (fun b => b) (fun b => b) (fun b _ => b) = .ok r ∧
      r.mixup = none ∧
      ∀ (elboC : Unit → Unit → ℚ) (crit : T → Unit → ℚ) (fc : Unit → Unit)
        (fmt : Unit × Unit → Unit × Unit) (batch : Unit × Unit),
        ClassificationSingle.training_step r elboC crit fc fmt batch
          = .error "AttributeError: object has no attribute mixup" :=
  mixtype_validation_deferred_to_training 2 (fun _ => [[1, 0]]) (fun x => x)
    false false "cutmix" "elem" "emb" 0 0 false false false none
    (fun b => b) (fun b => b) (fun b => b) (fun b => b) (fun b _ => b)
    (by decide) (by decide) (le_refl 0) (le_refl 0)

/-- The calibrated-pool update leaves every other pool untouched. -/
theorem applyCalibration_fields {ι τ : Type} (r : SingleRoutine ι τ)
    (pexp : ℚ → ℚ) (inputs : ι) (targets : List ℤ) (st : SinglePools) :
    (applyCalibration r pexp inputs targets st).test_cls = st.test_cls ∧
    (applyCalibration r pexp inputs targets st).entropy_id = st.entropy_id ∧
    (applyCalibration r pexp inputs targets st).test_ood = st.test_ood ∧
    (applyCalibration r pexp inputs targets st).entropy_ood = st.entropy_ood := by
  unfold applyCalibration
  rcases r.calibration_set with _ | u <;> rcases r.scaler with _ | sc <;>
    rcases r.cal_model with _ | cm <;> simp

/-- Whenever the single test step succeeds, the calibrated pool of the
result is exactly the one produced by the pre-dispatch calibration
update. -/
theorem test_step_ok_ts_cls {ι τ : Type} (r : SingleRoutine ι τ)
    (pexp psig pentr : ℚ → ℚ) (inputs : ι) (targets : List ℤ)
    (idx : ℕ) (st st' : SinglePools)
    (h : ClassificationSingle.test_step r pexp psig pentr inputs targets idx st
      = .ok st') :
    st'.ts_cls = (applyCalibration r pexp inputs targets st).ts_cls := by
  unfold ClassificationSingle.test_step at h
  dsimp only at h
  cases hc : maxLast (singleProbs r pexp psig (T.m (r.model inputs))) with
  | error e => rw [hc] at h; simp at h
  | ok confs =>
    rw [hc] at h
    simp only [except_bind_ok] at h
    cases ho : singleOodValues r pentr (T.m (r.model inputs))
        (singleProbs r pexp psig (T.m (r.model inputs))) confs with
    | error e => rw [ho] at h; simp at h
    | ok oodv =>
      rw [ho] at h
      simp only [except_bind_ok] at h
      split at h
      · split at h <;>
          (simp only [except_pure_eq_ok, Except.ok.injEq] at h; subst h; rfl)
      · split at h <;>
          (simp only [except_pure_eq_ok, Except.ok.injEq] at h; subst h; rfl)

/-- C9: when a calibration set is configured and the test-start hook has
run, every successful test step — for any dataloader index — forwards the
batch through the calibrated model (the fitted scaler composed with the
model) and prepends its softmaxed output to the calibrated metric pool. -/
theorem single_calibrated_pool_updated_every_index {ι τ : Type}
    (r : SingleRoutine ι τ) (fittedTS : List (List ℚ) → List (List ℚ))
    (pexp psig pentr : ℚ → ℚ) (inputs : ι) (targets : List ℤ)
    (idx : ℕ) (st st' : SinglePools)
    (hcal : r.calibration_set.isSome = true)
    (h : ClassificationSingle.test_step (ClassificationSingle.on_test_start r fittedTS)
        pexp psig pentr inputs targets idx st = .ok st') :
    st'.ts_cls = (softmaxLast pexp (T.m (fittedTS (r.model inputs))), targets)
      :: st.ts_cls := by
  have h2 := test_step_ok_ts_cls _ _ _ _ _ _ _ _ _ h
  rw [h2]
  obtain ⟨u, hu⟩ := Option.isSome_iff_exists.mp hcal
  unfold ClassificationSingle.on_test_start applyCalibration
  simp [hcal, hu]

/-- C9 witness: with the calibration set configured, a batch at dataloader
index 1 (an OOD batch) still lands in the calibrated pool. -/
theorem single_calibrated_pool_updated_every_index_witness :
    (SinglePools.mk [] [(softmaxLast (fun x => x) (T.m [[1, 0]]), [7])]
        [] [] [] []).ts_cls
      = (softmaxLast (fun x => x) (T.m ((fun y => y) (rCal0.model ()))), [7])
        :: (({} : SinglePools)).ts_cls :=
  single_calibrated_pool_updated_every_index rCal0 (fun y => y)
    (fun x => x) (fun x => x) (fun x => x) () [7] 1 {}
    (SinglePools.mk [] [(softmaxLast (fun x => x) (T.m [[1, 0]]), [7])]
      [] [] [] []) rfl rfl

/-- C1 counterexample: with a calibration set configured, a test batch at
dataloader index 2 is not a no-op — it updates the calibrated metric pool
(from empty to one recorded update), refuting "updates no metric pool". -/
theorem single_test_step_idx2_updates_calibrated_pool :
    (ClassificationSingle.test_step
        (ClassificationSingle.on_test_start rCal0 (fun y => y))
        (fun x => x) (fun x => x) (fun x => x) () [7] 2 {}).map
      (fun p => p.ts_cls)
      = .ok [(softmaxLast (fun x => x) (T.m [[1, 0]]), [7])] := rfl

/-- C1 (amended): in the single test step, index 0 updates the ID
classification pool and entropy metric and, when OOD detection is on,
seeds the OOD pool with negative labels; index 1 with OOD detection
updates the OOD pool with positive labels and the OOD entropy metric; any
index of 2 or more leaves the classification, OOD and entropy pools
unchanged — only the pre-dispatch calibrated-pool update (active when
calibration is configured) touches the state. -/
theorem single_test_step_index_routing {ι τ : Type} (r : SingleRoutine ι τ)
    (pexp psig pentr : ℚ → ℚ) (inputs : ι) (targets : List ℤ) (idx : ℕ)
    (st : SinglePools) (confs oodv : T)
    (hc : maxLast (singleProbs r pexp psig (T.m (r.model inputs))) = .ok confs)
    (ho : singleOodValues r pentr (T.m (r.model inputs))
        (singleProbs r pexp psig (T.m (r.model inputs))) confs = .ok oodv) :
    (idx = 0 →
      ClassificationSingle.test_step r pexp psig pentr inputs targets idx st =
        .ok (
          let probs := singleProbs r pexp psig (T.m (r.model inputs))
          let st1 := applyCalibration r pexp inputs targets st
          let st2 := { st1 with test_cls := (probs, targets) :: st1.test_cls
                                entropy_id := probs :: st1.entropy_id }
          if r.ood_detection then
            { st2 with test_ood := (oodv, targets.map (fun _ => 0)) :: st2.test_ood }
          else st2)) ∧
    (idx = 1 →
      ClassificationSingle.test_step r pexp psig pentr inputs targets idx st =
        .ok (
          let probs := singleProbs r pexp psig (T.m (r.model inputs))
          let st1 := applyCalibration r pexp inputs targets st
          if r.ood_detection then
            { st1 with test_ood := (oodv, targets.map (fun _ => 1)) :: st1.test_ood
                       entropy_ood := probs :: st1.entropy_ood }
          else st1)) ∧
    (2 ≤ idx →
      ClassificationSingle.test_step r pexp psig pentr inputs targets idx st =
        .ok (applyCalibration r pexp inputs targets st) ∧
      (applyCalibration r pexp inputs targets st).test_cls = st.test_cls ∧
      (applyCalibration r pexp inputs targets st).entropy_id = st.entropy_id ∧
      (applyCalibration r pexp inputs targets st).test_ood = st.test_ood ∧
      (applyCalibration r pexp inputs targets st).entropy_ood = st.entropy_ood) := by
  refine ⟨?_, ?_, ?_⟩
  · intro hidx
    subst hidx
    unfold ClassificationSingle.test_step
    dsimp only
    rw [hc]
    simp only [except_bind_ok]
    rw [ho]
    simp only [except_bind_ok]
    cases hod : r.ood_detection <;> simp [hod]
  · intro hidx
    subst hidx
    unfold ClassificationSingle.test_step
    dsimp only
    rw [hc]
    simp only [except_bind_ok]
    rw [ho]
    simp only [except_bind_ok]
    cases hod : r.ood_detection <;> simp [hod]
  · intro hidx
    have h0 : idx ≠ 0 := by omega
    have h1 : idx ≠ 1 := by omega
    refine ⟨?_, applyCalibration_fields r pexp inputs targets st |>.1,
      (applyCalibration_fields r pexp inputs targets st).2.1,
      (applyCalibration_fields r pexp inputs targets st).2.2.1,
      (applyCalibration_fields r pexp inputs targets st).2.2.2⟩
    unfold ClassificationSingle.test_step
    dsimp only
    rw [hc]
    simp only [except_bind_ok]
    rw [ho]
    simp only [except_bind_ok]
    simp [h0, h1]

/-- C1 witness: the routing equations instantiated on a binary routine
with OOD detection, one-sample batch `[[5]]` with target 3, at dataloader
index 0. -/
theorem single_test_step_index_routing_witness :
    ((0 : ℕ) = 0 →
      ClassificationSingle.test_step rBin (fun x => x) (fun x => x) (fun x => x)
          () [3] 0 {} =
        .ok (
          let probs := singleProbs rBin (fun x => x) (fun x => x)
            (T.m (rBin.model ()))
          let st1 := applyCalibration rBin (fun x => x) () [3] {}
          let st2 := { st1 with test_cls := (probs, [3]) :: st1.test_cls
                                entropy_id := probs :: st1.entropy_id }
          if rBin.ood_detection then
            { st2 with test_ood := (T.s (-5), List.map (fun _ => 0) [3]) :: st2.test_ood }
          else st2)) ∧
    ((0 : ℕ) = 1 →
      ClassificationSingle.test_step rBin (fun x => x) (fun x => x) (fun x => x)
          () [3] 0 {} =
        .ok (
          let probs := singleProbs rBin (fun x => x) (fun x => x)
            (T.m (rBin.model ()))
          let st1 := applyCalibration rBin (fun x => x) () [3] {}
          if rBin.ood_detection then
            { st1 with test_ood := (T.s (-5), List.map (fun _ => 1) [3]) :: st1.test_ood
                       entropy_ood := probs :: st1.entropy_ood }
          else st1)) ∧
    (2 ≤ (0 : ℕ) →
      ClassificationSingle.test_step rBin (fun x => x) (fun x => x) (fun x => x)
          () [3] 0 {} =
        .ok (applyCalibration rBin (fun x => x) () [3] {}) ∧
      (applyCalibration rBin (fun x => x) () [3] {}).test_cls
        = (({} : SinglePools)).test_cls ∧
      (applyCalibration rBin (fun x => x) () [3] {}).entropy_id
        = (({} : SinglePools)).entropy_id ∧
      (applyCalibration rBin (fun x => x) () [3] {}).test_ood
        = (({} : SinglePools)).test_ood ∧
      (applyCalibration rBin (fun x => x) () [3] {}).entropy_ood
        = (({} : SinglePools)).entropy_ood) :=
  single_test_step_index_routing rBin (fun x => x) (fun x => x) (fun x => x)
    () [3] 0 {} (T.s 5) (T.s (-5)) rfl rfl

/-- C5: in the ensemble test step with `use_entropy` selected, the OOD
score expression `entr(probs).sum(dim=-1).mean(dim=1)` applies
`mean(dim=1)` to a rank-1 tensor, which is a dimension error: the step
raises instead of producing one finite entropy score per sample.  Here it
is evaluated at a concrete batch (one estimator, two classes, stacked
logits `[[1, 0], [0, 1]]`, targets `[0, 1]`, dataloader index 0). -/
theorem ensemble_entropy_ood_score_raises :
    ClassificationEnsemble.test_step rEnsEntropy (fun x => x) (fun x => x)
      (fun x => x) (fun t => t) (fun t => t) () [0, 1] 0 {} =
      .error "IndexError: Dimension out of range" := rfl

theorem listChunkN_length {α : Type} : ∀ (n b : ℕ) (xs : List α),
    (listChunkN n b xs).length = n := by
  intro n
  induction n with
  | zero => intro b xs; rfl
  | succ n ih => intro b xs; simp [listChunkN, ih]

theorem listChunkN_rect {α : Type} : ∀ (n b : ℕ) (xs : List α),
    xs.length = n * b → ∀ r ∈ listChunkN n b xs, r.length = b := by
  intro n
  induction n with
  | zero => intro b xs _ r hr; simp [listChunkN] at hr
  | succ n ih =>
      intro b xs hlen r hr
      rw [Nat.succ_mul] at hlen
      simp only [listChunkN, List.mem_cons] at hr
      rcases hr with rfl | hr
      · rw [List.length_take]
        omega
      · exact ih b (xs.drop b) (by rw [List.length_drop]; omega) r hr

theorem listChunkN_getD {α : Type} (d : α) : ∀ (n b : ℕ) (xs : List α) (e i : ℕ),
    i < b → e < n → xs.length = n * b →
    ((listChunkN n b xs).getD e []).getD i d = xs.getD (e * b + i) d := by
  intro n
  induction n with
  | zero => intro b xs e i _ he _; omega
  | succ n ih =>
      intro b xs e i hi he hlen
      rw [Nat.succ_mul] at hlen
      cases e with
      | zero =>
          simp only [listChunkN, List.getD_cons_zero]
          rw [List.getD_eq_getElem?_getD, List.getD_eq_getElem?_getD,
            List.getElem?_take, if_pos hi]
          simp
      | succ e2 =>
          simp only [listChunkN, List.getD_cons_succ]
          rw [ih b (xs.drop b) e2 i hi (by omega) (by rw [List.length_drop]; omega)]
          rw [List.getD_eq_getElem?_getD, List.getD_eq_getElem?_getD,
            List.getElem?_drop]
          have harith : b + (e2 * b + i) = (e2 + 1) * b + i := by ring
          rw [harith]

theorem lTranspose_length {α : Type} : ∀ (M : List (List α)) (B : ℕ), M ≠ [] →
    (∀ r ∈ M, r.length = B) → (lTranspose M).length = B := by
  intro M
  induction M with
  | nil => intro B h _; exact absurd rfl h
  | cons r rest ih =>
      intro B _ hrect
      cases rest with
      | nil =>
          simp only [lTranspose, List.length_map]
          exact hrect r (by simp)
      | cons q rest2 =>
          rw [lTranspose, List.length_zipWith,
            ih B (by simp) (fun s hs => hrect s (List.mem_cons_of_mem _ hs)),
            hrect r (by simp)]
          exact Nat.min_self B

theorem lTranspose_getD {α : Type} (d : α) : ∀ (M : List (List α)) (B i j : ℕ),
    (∀ r ∈ M, r.length = B) → i < M.length → j < B →
    ((lTranspose M).getD j []).getD i d = (M.getD i []).getD j d := by
  intro M
  induction M with
  | nil => intro B i j _ hi _; simp at hi
  | cons r rest ih =>
      intro B i j hrect hi hj
      have hr : r.length = B := hrect r (by simp)
      have hjr : j < r.length := by omega
      cases rest with
      | nil =>
          have hi0 : i = 0 := by simp at hi; omega
          subst hi0
          simp only [lTranspose]
          rw [List.getD_eq_getElem?_getD, List.getD_eq_getElem?_getD,
            List.getElem?_map, List.getElem?_eq_getElem hjr]
          simp [List.getD_eq_getElem?_getD, List.getElem?_eq_getElem hjr]
      | cons q rest2 =>
          have hrect2 : ∀ s ∈ q :: rest2, s.length = B :=
            fun s hs => hrect s (List.mem_cons_of_mem _ hs)
          have hTlen : (lTranspose (q :: rest2)).length = B :=
            lTranspose_length (q :: rest2) B (by simp) hrect2
          have hjT : j < (lTranspose (q :: rest2)).length := by omega
          simp only [lTranspose]
          rw [List.getD_eq_getElem?_getD, List.getD_eq_getElem?_getD,
            List.getElem?_zipWith,
            List.getElem?_eq_getElem hjr, List.getElem?_eq_getElem hjT]
          cases i with
          | zero => simp [List.getD_eq_getElem?_getD, List.getElem?_eq_getElem hjr]
          | succ i2 =>
              have hi2 : i2 < (q :: rest2).length := by simp at hi ⊢; omega
              simp only [Option.getD_some, List.getElem?_cons_succ,
                List.getD_cons_succ]
              have := ih B i2 j hrect2 hi2 hj
              rw [List.getD_eq_getElem?_getD, List.getD_eq_getElem?_getD,
                List.getElem?_eq_getElem hjT] at this
              simpa [List.getD_eq_getElem?_getD] using this

/-- C4: the ensemble validation/test reshape of stacked logits
`[n * B, C]` into `[B, n, C]` (`ensembleRearrange`, used by
`ClassificationEnsemble.validation_step` and `.test_step`) places at
position `[b, e, c]` the entry of row `e * B + b`, column `c` of the
stacked tensor — the estimator index varies slowest. -/
theorem ensemble_rearrange_element (n B : ℕ) (x : List (List ℚ)) (hn : 0 < n)
    (hlen : x.length = n * B) (b e : ℕ) (hb : b < B) (he : e < n) :
    ∃ y, ensembleRearrange n x = .ok y ∧
      (y.getD b []).getD e [] = x.getD (e * B + b) [] ∧
      ∀ c : ℕ, ((y.getD b []).getD e []).getD c 0
        = (x.getD (e * B + b) []).getD c 0 := by
  have hmod : x.length % n = 0 := by rw [hlen]; exact Nat.mul_mod_right n B
  have hdiv : x.length / n = B := by rw [hlen]; exact Nat.mul_div_cancel_left B hn
  have hrect : ∀ r ∈ listChunkN n B x, r.length = B := listChunkN_rect n B x hlen
  have hclen : (listChunkN n B x).length = n := listChunkN_length n B x
  have hrow : ((lTranspose (listChunkN n B x)).getD b []).getD e []
      = ((listChunkN n B x).getD e []).getD b [] :=
    lTranspose_getD [] (listChunkN n B x) B e b hrect
      (by rw [hclen]; exact he) hb
  have hchunk : ((listChunkN n B x).getD e []).getD b [] = x.getD (e * B + b) [] :=
    listChunkN_getD [] n B x e b hb he hlen
  refine ⟨lTranspose (listChunkN n B x), ?_, ?_, ?_⟩
  · have hcond : ¬(n = 0 ∨ x.length % n ≠ 0) := by
      push_neg
      exact ⟨hn.ne', hmod⟩
    unfold ensembleRearrange
    rw [if_neg hcond, hdiv]
  · rw [hrow, hchunk]
  · intro c
    rw [hrow, hchunk]

/-- C4 witness: for 3 estimators, batch 4 and 5 classes, the reshaped
`[12, 5]` tensor has at `[1, 2, c]` the entries of stacked row
`2 * 4 + 1 = 9`. -/
theorem ensemble_rearrange_element_witness :
    ∃ y, ensembleRearrange 3 stacked12x5 = .ok y ∧
      (y.getD 1 []).getD 2 [] = stacked12x5.getD (2 * 4 + 1) [] ∧
      ∀ c : ℕ, ((y.getD 1 []).getD 2 []).getD c 0
        = (stacked12x5.getD (2 * 4 + 1) []).getD c 0 :=
  ensemble_rearrange_element 3 4 stacked12x5 (by decide) (by decide) 1 2
    (by decide) (by decide)
